import Mathlib

/-!
# blockchain.js : deployment and transaction lifecycle

A shallow embedding of `src/blockchain/blockchain.js`.

* JavaScript values that the code tests for truthiness or compares with `===`
  (`chaincodeID`, `config.deployed_name`, `config.chaincode.deployed_name`) are
  values of `JSVal`.
* Every call into a collaborator (the hfc chain, a member's transaction
  channel, `fs`, the logger, the caller's `cb`) is recorded as an effect, in
  program order.  The answer a collaborator gives to a call (lookup found or
  failed, file read or not, the events a channel emits) is an argument of the
  embedded function.
* `logger` calls are recorded with their level and literal message text;
  interpolated objects (errors, results) are not rendered.
* Module level variables (`chaincodeID`, the mutable `config`, the `fsTimeout`
  of every registered watcher closure) are fields of `World`.
-/

namespace Blockchain

/-! ## JavaScript values -/

/-- The JavaScript values a deployed-code identifier can take: `undefined`,
`null`, or a string. -/
inductive JSVal where
  | undefined
  | null
  | str (s : String)
  deriving DecidableEq, Repr

/-- JavaScript truthiness: `undefined`, `null` and the empty string are falsy. -/
def JSVal.truthy : JSVal → Bool
  | .undefined => false
  | .null => false
  | .str s => s != ""

/-- The JavaScript operator `a || b`: `a` when it is truthy, else `b`. -/
def JSVal.or (a b : JSVal) : JSVal :=
  if a.truthy then a else b

/-- The JavaScript operator `a === b` on these values. -/
def JSVal.strictEq (a b : JSVal) : Bool :=
  decide (a = b)

/-- Log levels of `../utils/logger` used by the module. -/
inductive Level where
  | info
  | error
  deriving DecidableEq, Repr

/-! ## Transaction coordinator: `getUser`, `exports.invoke`, `exports.query` -/

/-- The request object built by `invoke` and `query` (lines 284-289, 321-326). -/
structure TxRequest where
  chaincodeID : JSVal
  fcn : String
  args : List String
  attrs : List String
  deriving DecidableEq, Repr

/-- What `chain.getUser(userName, ...)` hands to its callback: a (truthy)
error, or a member object whose `isEnrolled()` answers `enrolled`. -/
inductive LookupOutcome where
  | failed (err : String)
  | found (enrolled : Bool)
  deriving DecidableEq, Repr

/-- What `user.getUserCert(null, ...)` hands to its callback. -/
inductive CertOutcome where
  | failed (err : String)
  | ok
  deriving DecidableEq, Repr

/-- An event emitted by the transaction object returned by `user.invoke` or
`user.query`.  For a query, the payload of `complete` is
`results.result.toString()`. -/
inductive TxEvent where
  | submitted (results : String)
  | complete (results : String)
  | error (err : String)
  deriving DecidableEq, Repr

/-- Effects of the transaction coordinator, `V` being the type of the value
passed to the caller on success. -/
inductive TxEffect (V : Type) where
  | log (level : Level) (msg : String)
  | getUserCert (userName : String)
  | userInvoke (userName : String) (req : TxRequest)
  | userQuery (userName : String) (req : TxRequest)
  | cb (err : Option String) (result : Option V)
  | uncaught (exn : String)
  deriving DecidableEq, Repr

/-- Source `getUser` (lines 252-270), in continuation passing style as in the
source: `k err user` is the callback `cb(err, user)`; the member object is
identified by its name. -/
def getUser {V : Type} (lookup : LookupOutcome) (cert : CertOutcome) (userName : String)
    (k : Option String → Option String → List (TxEffect V)) : List (TxEffect V) :=
  match lookup with
  | .failed err => k (some err) none
  | .found enrolled =>
    if enrolled then
      TxEffect.getUserCert userName ::
        (match cert with
         | .failed err =>
           TxEffect.log .error "Failed to get user certificate" :: k (some err) none
         | .ok => k none (some userName))
    else
      k (some "user is not yet registered and enrolled") none

/-- The three handlers registered on the transaction object by `invoke`
(lines 294-304), applied to one emitted event. -/
def invokeHandler : TxEvent → List (TxEffect String)
  | .submitted _ => [TxEffect.log .info "[SDK] submitted invoke:"]
  | .complete results =>
    [TxEffect.log .info "[SDK] completed invoke:", TxEffect.cb none (some results)]
  | .error err =>
    [TxEffect.log .error "[SDK] error on invoke:", TxEffect.cb (some err) none]

/-- Source `exports.invoke` (lines 273-307).  `chaincodeID` is the module
variable at the time the `getUser` callback runs, `events` the events the
transaction object emits afterwards. -/
def invoke (chaincodeID : JSVal) (lookup : LookupOutcome) (cert : CertOutcome)
    (events : List TxEvent) (fcn userName : String) (args : List String) :
    List (TxEffect String) :=
  let args := args ++ [userName]
  getUser lookup cert userName fun err user =>
    match err, user with
    | none, some user =>
      let invokeRequest : TxRequest :=
        { chaincodeID := chaincodeID, fcn := fcn, args := args, attrs := ["userName"] }
      TxEffect.userInvoke user invokeRequest :: events.flatMap invokeHandler
    | some err, _ =>
      [TxEffect.log .error ("[SDK] Failed to get " ++ userName ++ " ---> "), TxEffect.cb (some err) none]
    | none, none => []

/-- The three handlers registered on the transaction object by `query`
(lines 331-341), applied to one emitted event.  `parse` is `JSON.parse`:
`none` stands for the `SyntaxError` it throws, which nothing in the handler
catches, so `cb` on line 336 is not reached. -/
def queryHandler {V : Type} (parse : String → Option V) : TxEvent → List (TxEffect V)
  | .submitted _ => [TxEffect.log .info "[SDK] submitted query: %j"]
  | .complete results =>
    TxEffect.log .info "[SDK] completed query: %j" ::
      (match parse results with
       | some v => [TxEffect.cb none (some v)]
       | none => [TxEffect.uncaught "SyntaxError"])
  | .error err =>
    [TxEffect.log .error "[SDK] error on query: %j", TxEffect.cb (some err) none]

/-- Source `exports.query` (lines 310-345). -/
def query {V : Type} (parse : String → Option V) (chaincodeID : JSVal)
    (lookup : LookupOutcome) (cert : CertOutcome)
    (events : List TxEvent) (fcn userName : String) (args : List String) :
    List (TxEffect V) :=
  let args := args ++ [userName]
  getUser lookup cert userName fun err user =>
    match err, user with
    | none, some user =>
      let queryRequest : TxRequest :=
        { chaincodeID := chaincodeID, fcn := fcn, args := args, attrs := ["userName"] }
      TxEffect.userQuery user queryRequest :: events.flatMap (queryHandler parse)
    | some err, _ =>
      [TxEffect.log .error ("[SDK] Failed to get " ++ userName ++ " ---> "), TxEffect.cb (some err) none]
    | none, none => []

/-- The calls of the caller's callback `cb` in a trace, in order. -/
def cbCalls {V : Type} : List (TxEffect V) → List (Option String × Option V)
  | [] => []
  | .cb err result :: es => (err, result) :: cbCalls es
  | _ :: es => cbCalls es

/-- The requests sent on a member's transaction channel (`user.invoke`,
`user.query`) in a trace. -/
def channelRequests {V : Type} : List (TxEffect V) → List TxRequest
  | [] => []
  | .userInvoke _ req :: es => req :: channelRequests es
  | .userQuery _ req :: es => req :: channelRequests es
  | _ :: es => channelRequests es

/-- The certificate requests (`user.getUserCert`) in a trace. -/
def certRequests {V : Type} : List (TxEffect V) → List String
  | [] => []
  | .getUserCert u :: es => u :: certRequests es
  | _ :: es => certRequests es

/-- The exceptions that leave an event handler uncaught in a trace. -/
def uncaughtExns {V : Type} : List (TxEffect V) → List String
  | [] => []
  | .uncaught e :: es => e :: uncaughtExns es
  | _ :: es => uncaughtExns es

/-- Terminal events: `complete` and `error`. -/
def TxEvent.isTerminal : TxEvent → Bool
  | .submitted _ => false
  | .complete _ => true
  | .error _ => true

/-- A toy decoder used to instantiate `JSON.parse` at concrete inputs: it
decodes the JSON literals `true` and `false` and rejects everything else. -/
def boolLiteralParse : String → Option Bool
  | "true" => some true
  | "false" => some false
  | _ => none

/-! ## User registrar: `registerUsers` -/

/-- The request object built on lines 103-107. -/
structure RegistrationRequest where
  enrollmentID : String
  affiliation : String
  account : String
  deriving DecidableEq, Repr

/-- The request object built on lines 177-181. -/
structure DeployRequest where
  fcn : String
  args : List String
  chaincodePath : String
  deriving DecidableEq, Repr

/-- Effects of the registrar and of the deployment controller. -/
inductive Effect where
  | log (level : Level) (msg : String)
  | getUser (userName : String)
  | registerAndEnroll (req : RegistrationRequest)
  | readFile (path : String)
  | writeFile (path : String) (data : JSVal)
  | deploy (req : DeployRequest)
  | invokeTestData
  | watch (path : String)
  | setTimeout (ms : Nat)
  | copy (src dst : String)
  deriving DecidableEq, Repr

/-- An entry of `config.network.app_users`; only `username` is read. -/
structure AppUser where
  username : String
  deriving DecidableEq, Repr

/-- The body of the `forEach` callback of `registerUsers` (lines 92-117) for
one configured identity: the lookup, then the callback of the lookup placed
right after it.  `lookup` is what `chain.getUser` answers, `reg` the error (if
any) that `chain.registerAndEnroll` answers. -/
def registerUser (lookup : LookupOutcome) (reg : Option String) (user : AppUser) :
    List Effect :=
  Effect.getUser user.username ::
    (match lookup with
     | .failed err =>
       [Effect.log .error ("[SDK] Error getting user " ++ user.username), Effect.log .info err]
     | .found enrolled =>
       if enrolled then
         [Effect.log .info ("[SDK] User " ++ user.username ++ " is already enrolled")]
       else
         let registrationRequest : RegistrationRequest :=
           { enrollmentID := user.username, affiliation := "institution_a", account := "group1" }
         Effect.registerAndEnroll registrationRequest ::
           (match reg with
            | some err =>
              [Effect.log .error ("[SDK] Error registering and enrolling user" ++ user.username),
               Effect.log .info err]
            | none =>
              [Effect.log .info
                ("[SDK] User " ++ user.username ++ " successfully registered and enrolled")]))

/-- The `forEach` of line 90 from position `i` on: `lookup j` and `reg j` are
the answers of the network for the identity at position `j` of the list. -/
def registerUsersFrom (lookup : Nat → LookupOutcome) (reg : Nat → Option String) :
    Nat → List AppUser → List Effect
  | _, [] => []
  | i, user :: rest =>
    registerUser (lookup i) (reg i) user ++ registerUsersFrom lookup reg (i + 1) rest

/-- Source `registerUsers` (lines 85-120). -/
def registerUsers (app_users : List AppUser) (lookup : Nat → LookupOutcome)
    (reg : Nat → Option String) : List Effect :=
  Effect.log .info "[SDK] Going to register users" :: registerUsersFrom lookup reg 0 app_users

/-- The `registerAndEnroll` requests in a trace, in order. -/
def registrationRequests : List Effect → List RegistrationRequest
  | [] => []
  | .registerAndEnroll req :: es => req :: registrationRequests es
  | _ :: es => registrationRequests es

/-- The names looked up with `chain.getUser` in a trace, in order. -/
def lookups : List Effect → List String
  | [] => []
  | .getUser u :: es => u :: lookups es
  | _ :: es => lookups es

/-- The identities, with their positions from `i` on, for which `registerUsers`
must register: the lookup succeeds and `isEnrolled()` is false. -/
def unenrolledFrom (lookup : Nat → LookupOutcome) : Nat → List AppUser → List AppUser
  | _, [] => []
  | i, user :: rest =>
    if lookup i = .found false then user :: unenrolledFrom lookup (i + 1) rest
    else unenrolledFrom lookup (i + 1) rest

/-! ## Deployment controller -/

/-- The fields of `config.chaincode` the module reads. -/
structure ChaincodeConfig where
  deployed_name : JSVal
  global_path : String
  local_path : String
  auto_redeploy : Bool
  deriving DecidableEq, Repr

/-- The module `./chaincodeconfig` as far as it is read here.  The top level
property `deployed_name` is the one tested on line 165 (`config.deployed_name`);
`chaincode.deployed_name` is the one assigned on line 166. -/
structure Config where
  deployed_name : JSVal
  chaincode : ChaincodeConfig
  app_users : List AppUser
  deriving DecidableEq, Repr

/-- Process environment and library functions: `NODE_ENV == "production"`,
`GOPATH`, and the md5 digest in base64 of the `crypto` module. -/
structure Env where
  production : Bool
  goPath : String
  md5Base64 : String → String

/-- The closure state of one listener registered by `watchChaincodeLocalFile`:
the path computed on line 229 and its own variable `fsTimeout` (line 231),
`none` when it is `undefined` or `null`, `some d` while the timer armed by
`setTimeout(..., 5000)` is pending and due at time `d` (milliseconds). -/
structure Watcher where
  globalChaincodePath : String
  fsTimeout : Option Nat
  deriving DecidableEq, Repr

/-- Module state: the mutable `config`, the variable `chaincodeID` (line 10),
the listeners registered with `fs.watch`, and the effects so far. -/
structure World where
  config : Config
  chaincodeID : JSVal
  watchers : List Watcher
  trace : List Effect
  deriving DecidableEq, Repr

/-- The state when the module is loaded: `chaincodeID` is `undefined`. -/
def World.initial (config : Config) : World :=
  { config := config, chaincodeID := .undefined, watchers := [], trace := [] }

/-- Record one effect. -/
def World.emit (w : World) (e : Effect) : World :=
  { w with trace := w.trace ++ [e] }

/-- What `fs.readFile` hands to its callback: an error (and no data), or the
content of the file as a Buffer. -/
inductive ReadOutcome where
  | failed (err : String)
  | ok (content : String)
  deriving DecidableEq, Repr

/-- Source `saveLatestDeployed` (lines 123-125). -/
def saveLatestDeployed (w : World) : World :=
  w.emit (.writeFile "blockchain/data/latest_deployed" w.chaincodeID)

/-- Source `loadLatestDeployed` (lines 128-133): `data ? data.toString() : null`;
a Buffer is an object and so truthy also when the file is empty. -/
def loadLatestDeployed (rd : ReadOutcome) (w : World)
    (cb : Option String → JSVal → World → World) : World :=
  let w := w.emit (.readFile "blockchain/data/latest_deployed")
  match rd with
  | .failed err => cb (some err) .null w
  | .ok content => cb none (.str content) w

/-- Source `createHash` (lines 136-140): the md5 digest, in base64, of the
decimal text of `new Date().getTime()`, here `now`. -/
def createHash (env : Env) (now : Nat) : String :=
  env.md5Base64 (toString now)

/-- Source `watchChaincodeLocalFile` (lines 227-249): registers one more
listener, with a fresh `fsTimeout`. -/
def watchChaincodeLocalFile (env : Env) (w : World) : World :=
  let goPath := env.goPath
  let globalChaincodePath := goPath ++ "/src/" ++ w.config.chaincode.global_path
  let listener : Watcher := { globalChaincodePath := globalChaincodePath, fsTimeout := none }
  let w := { w with watchers := w.watchers ++ [listener] }
  let w := w.emit (.watch w.config.chaincode.local_path)
  w.emit (.log .info ("[SDK] Watching " ++ w.config.chaincode.local_path ++ " for changes..."))

/-- Source `afterDeployment` (lines 208-223). -/
def afterDeployment (env : Env) (newChaincodeID : JSVal) (w : World) : World :=
  let w := { w with chaincodeID := newChaincodeID }
  let w := w.emit (.log .info "[SDK] Executing after deployment")
  let w := saveLatestDeployed w
  let w := w.emit .invokeTestData
  if w.config.chaincode.auto_redeploy then watchChaincodeLocalFile env w else w

/-- Source `deployChaincode` (lines 143-205).  `forceRedeploy` is `false` when
the argument is omitted; `rd` is what `fs.readFile` answers; `now` is the clock
read by `createHash`.  The handlers registered on `deployTx` are
`onDeployComplete` and `onDeployError`. -/
def deployChaincode (env : Env) (forceRedeploy : Bool) (rd : ReadOutcome) (now : Nat)
    (w : World) : World :=
  if env.production then
    let w := { w with chaincodeID := w.config.chaincode.deployed_name }
    w.emit .invokeTestData
  else
    let w := w.emit (.log .info "[SDK] Checking if redeploy is needed")
    loadLatestDeployed rd w fun err latestDeployed w =>
      let w :=
        if !w.config.deployed_name.truthy && !err.isSome then
          { w with config.chaincode.deployed_name := latestDeployed }
        else w
      let notDeployedYet :=
        JSVal.strictEq w.config.chaincode.deployed_name (JSVal.or (.str "") .null)
      if notDeployedYet || forceRedeploy then
        let w := w.emit (.log .info "[SDK] Going to deploy chaincode")
        let w := w.emit
          (.log .info ("[SDK] Global path to chaincode: " ++ w.config.chaincode.global_path))
        let deployRequest : DeployRequest :=
          { fcn := "init", args := [createHash env now],
            chaincodePath := w.config.chaincode.global_path }
        w.emit (.deploy deployRequest)
      else
        let w := w.emit (.log .info "[SDK] Using previously deployed chaincode: ")
        afterDeployment env w.config.chaincode.deployed_name w

/-- The `complete` handler of `deployTx` (lines 187-193), `chaincodeID` being
`results.chaincodeID`. -/
def onDeployComplete (env : Env) (chaincodeID : JSVal) (w : World) : World :=
  let w := w.emit (.log .info "[SDK] Successfully deployed chaincode")
  let w := w.emit (.log .info "[SDK] Deploy result: ")
  afterDeployment env chaincodeID w

/-- The `error` handler of `deployTx` (lines 194-197). -/
def onDeployError (w : World) : World :=
  let w := w.emit (.log .error "[SDK] Failed to deploy chaincode")
  w.emit (.log .error "[SDK] Deploy error: ")

/-- The timer callback of line 234, `function() { fsTimeout=null }`, has run
by time `t` when the timer was due at `d` with `d ≤ t`. -/
def Watcher.expire (t : Nat) (wa : Watcher) : Watcher :=
  match wa.fsTimeout with
  | some d => if d ≤ t then { wa with fsTimeout := none } else wa
  | none => wa

/-- The listener of lines 232-247 for one change notification at time `t`:
the new closure state and the effects (arming the timer, starting the copy). -/
def watchListener (config : Config) (t : Nat) (wa : Watcher) : Watcher × List Effect :=
  let chaincode := "/chaincode.go"
  if wa.fsTimeout.isNone then
    ({ wa with fsTimeout := some (t + 5000) },
     [Effect.setTimeout 5000,
      Effect.log .info
        ("[SDK] Copying: " ++ config.chaincode.local_path ++ chaincode ++ " to: "
          ++ wa.globalChaincodePath ++ chaincode),
      Effect.copy (config.chaincode.local_path ++ chaincode) (wa.globalChaincodePath ++ chaincode)])
  else (wa, [])

/-- A change notification of `fs.watch` on `config.chaincode.local_path` at
time `t`: timers due by `t` have fired, then every registered listener runs. -/
def onFileChange (t : Nat) (w : World) : World :=
  let rs := (w.watchers.map (Watcher.expire t)).map (watchListener w.config t)
  { w with watchers := rs.map Prod.fst, trace := w.trace ++ rs.flatMap Prod.snd }

/-- The callback of `fs.copy` (lines 237-245). -/
def onCopyDone (env : Env) (err : Option String) (rd : ReadOutcome) (now : Nat)
    (w : World) : World :=
  match err with
  | some e => w.emit (.log .error e)
  | none =>
    let w := w.emit (.log .info "[SDK] Files synchronized")
    let w := w.emit (.log .info "[SDK] event fired. Redeploying...")
    deployChaincode env true rd now w

/-- What can happen to the deployment controller after start-up. -/
inductive Event where
  | fileChange (t : Nat)
  | copyDone (err : Option String) (rd : ReadOutcome) (now : Nat)
  | deployComplete (chaincodeID : JSVal)
  | deployError
  deriving DecidableEq, Repr

/-- One event handled by the module. -/
def step (env : Env) (w : World) : Event → World
  | .fileChange t => onFileChange t w
  | .copyDone err rd now => onCopyDone env err rd now w
  | .deployComplete chaincodeID => onDeployComplete env chaincodeID w
  | .deployError => onDeployError w

/-- A sequence of events handled in order. -/
def run (env : Env) (w : World) (events : List Event) : World :=
  events.foldl (step env) w

/-- The deployment requests (`webAppAdmin.deploy`) in a trace, in order. -/
def deployRequests : List Effect → List DeployRequest
  | [] => []
  | .deploy req :: es => req :: deployRequests es
  | _ :: es => deployRequests es

/-- The values written to the persisted record in a trace, in order. -/
def persistedWrites : List Effect → List JSVal
  | [] => []
  | .writeFile _ data :: es => data :: persistedWrites es
  | _ :: es => persistedWrites es

/-- The number of redeploy cycles started (copies of the artifact) in a trace. -/
def copiesStarted : List Effect → Nat
  | [] => 0
  | .copy _ _ :: es => copiesStarted es + 1
  | _ :: es => copiesStarted es

/-- A symbolic digest used to instantiate `md5Base64` at concrete inputs: it
keeps its input, so distinct inputs give distinct digests. -/
def symbolicDigest (s : String) : String :=
  "md5:" ++ s

/-- A self-hosted environment for concrete runs. -/
def localEnv : Env :=
  { production := false, goPath := "/go", md5Base64 := symbolicDigest }

/-- A configuration for concrete runs with `config.chaincode.deployed_name`
set to `name`, the top level `config.deployed_name` unset, auto-redeploy on. -/
def sampleConfigWith (name : JSVal) : Config :=
  { deployed_name := .undefined,
    chaincode :=
      { deployed_name := name, global_path := "chaincode", local_path := "./chaincode",
        auto_redeploy := true },
    app_users := [{ username := "alice" }, { username := "bob" }] }

/-- A configuration for concrete runs: nothing deployed, auto-redeploy on. -/
def sampleConfig : Config :=
  { deployed_name := .undefined,
    chaincode :=
      { deployed_name := .null, global_path := "chaincode", local_path := "./chaincode",
        auto_redeploy := true },
    app_users := [{ username := "alice" }, { username := "bob" }] }

/-- Whether `JSON.parse` succeeds on the result carried by an event; events
other than `complete` carry no result to parse. -/
def TxEvent.parsable {V : Type} (parse : String → Option V) : TxEvent → Bool
  | .complete results => (parse results).isSome
  | _ => true

/-- A configuration for concrete runs whose top level `deployed_name`, the
property read by the guard on line 165, is set, with nothing configured in
`chaincode.deployed_name`. -/
def topLevelNameConfig : Config :=
  { deployed_name := .str "preset",
    chaincode :=
      { deployed_name := .null, global_path := "chaincode", local_path := "./chaincode",
        auto_redeploy := true },
    app_users := [{ username := "alice" }, { username := "bob" }] }

/-- Whether a listener can still accept a change notification before time
`t0 + 5000`: its timer is not pending, or is due before then. -/
def Watcher.openBefore (t0 : Nat) (wa : Watcher) : Bool :=
  match wa.fsTimeout with
  | some d => decide (d < t0 + 5000)
  | none => true

/-- What `invoke` passes to `cb` for one event: nothing for `submitted`,
`(null, results)` for `complete`, `(err)` for `error`. -/
def invokeDelivery : TxEvent → Option (Option String × Option String)
  | .submitted _ => none
  | .complete results => some (none, some results)
  | .error err => some (some err, none)

/-- What `query` passes to `cb` for one event: nothing for `submitted` and for
a `complete` whose result does not parse, `(null, v)` for a `complete` whose
result parses to `v`, `(err)` for `error`. -/
def queryDelivery {V : Type} (parse : String → Option V) :
    TxEvent → Option (Option String × Option V)
  | .submitted _ => none
  | .complete results => (parse results).map fun v => (none, some v)
  | .error err => some (some err, none)

/-! ## Lemmas on traces -/

theorem cbCalls_append {V : Type} (xs ys : List (TxEffect V)) :
    cbCalls (xs ++ ys) = cbCalls xs ++ cbCalls ys := by
  induction xs with
  | nil => rfl
  | cons x xs ih => cases x <;> simp [cbCalls, ih]

theorem channelRequests_append {V : Type} (xs ys : List (TxEffect V)) :
    channelRequests (xs ++ ys) = channelRequests xs ++ channelRequests ys := by
  induction xs with
  | nil => rfl
  | cons x xs ih => cases x <;> simp [channelRequests, ih]

theorem cbCalls_invokeHandlers (events : List TxEvent) :
    cbCalls (events.flatMap invokeHandler) = events.filterMap invokeDelivery := by
  induction events with
  | nil => rfl
  | cons e es ih =>
    cases e <;>
      (simp only [List.flatMap_cons, cbCalls_append, ih]; simp [invokeHandler, cbCalls, invokeDelivery])

theorem cbCalls_queryHandlers {V : Type} (parse : String → Option V) (events : List TxEvent) :
    cbCalls (events.flatMap (queryHandler parse)) = events.filterMap (queryDelivery parse) := by
  induction events with
  | nil => rfl
  | cons e es ih =>
    cases e with
    | submitted r =>
      (simp only [List.flatMap_cons, cbCalls_append, ih]; simp [queryHandler, cbCalls, queryDelivery])
    | complete r =>
      cases h : parse r <;>
        (simp only [List.flatMap_cons, cbCalls_append, ih]; simp [queryHandler, cbCalls, queryDelivery, h])
    | error r =>
      (simp only [List.flatMap_cons, cbCalls_append, ih]; simp [queryHandler, cbCalls, queryDelivery])

theorem channelRequests_invokeHandlers (events : List TxEvent) :
    channelRequests (events.flatMap invokeHandler) = [] := by
  induction events with
  | nil => rfl
  | cons e es ih =>
    cases e <;>
      (simp only [List.flatMap_cons, channelRequests_append, ih]; simp [invokeHandler, channelRequests])

theorem channelRequests_queryHandlers {V : Type} (parse : String → Option V)
    (events : List TxEvent) :
    channelRequests (events.flatMap (queryHandler parse)) = [] := by
  induction events with
  | nil => rfl
  | cons e es ih =>
    cases e with
    | submitted r =>
      (simp only [List.flatMap_cons, channelRequests_append, ih]; simp [queryHandler, channelRequests])
    | complete r =>
      cases h : parse r <;>
        (simp only [List.flatMap_cons, channelRequests_append, ih]; simp [queryHandler, channelRequests, h])
    | error r =>
      (simp only [List.flatMap_cons, channelRequests_append, ih]; simp [queryHandler, channelRequests])

theorem cbCalls_invoke_enrolled (chaincodeID : JSVal) (events : List TxEvent)
    (fcn userName : String) (args : List String) :
    cbCalls (invoke chaincodeID (.found true) .ok events fcn userName args)
      = events.filterMap invokeDelivery := by
  simp [invoke, getUser, cbCalls, cbCalls_invokeHandlers]

theorem cbCalls_query_enrolled {V : Type} (parse : String → Option V) (chaincodeID : JSVal)
    (events : List TxEvent) (fcn userName : String) (args : List String) :
    cbCalls (query parse chaincodeID (.found true) .ok events fcn userName args)
      = events.filterMap (queryDelivery parse) := by
  simp [query, getUser, cbCalls, cbCalls_queryHandlers]

/-! ## Transaction coordinator: results -/

/-- C1, as stated, fails: for an enrolled identity and the faulty event
sequence `complete` then `error`, which contains a terminal event, `invoke`
calls `cb` twice, first with the result and then with the error. -/
theorem invoke_complete_then_error_calls_cb_twice :
    ([TxEvent.complete "r", TxEvent.error "e"].any TxEvent.isTerminal = true) ∧
    cbCalls (invoke (.str "cc") (.found true) .ok [.complete "r", .error "e"] "f" "alice" [])
      = [(none, some "r"), (some "e", none)] ∧
    (cbCalls (invoke (.str "cc") (.found true) .ok [.complete "r", .error "e"]
      "f" "alice" [])).length ≠ 1 := by
  decide

/-- For a query all of whose `complete` results parse, every terminal event
delivers to `cb`. -/
theorem length_filterMap_queryDelivery {V : Type} (parse : String → Option V)
    (events : List TxEvent) (h : events.all (TxEvent.parsable parse) = true) :
    (events.filterMap (queryDelivery parse)).length
      = (events.filter TxEvent.isTerminal).length := by
  induction events with
  | nil => rfl
  | cons e es ih =>
    simp only [List.all_cons, Bool.and_eq_true] at h
    have ih2 := ih h.2
    cases e with
    | submitted r => simp [queryDelivery, TxEvent.isTerminal, ih2]
    | complete r =>
      have hp : (parse r).isSome = true := h.1
      obtain ⟨v, hv⟩ := Option.isSome_iff_exists.mp hp
      simp [queryDelivery, TxEvent.isTerminal, ih2, hv]
    | error r => simp [queryDelivery, TxEvent.isTerminal, ih2]

/-- C1, amended: when `getUser` succeeds (identity found, enrolled,
certificate obtained), for every event sequence `invoke` calls `cb` once for
each terminal event, in the order of the events, with `(null, results)` for a
`complete` and `(err)` for an `error`; so `cb` is called as many times as
there are terminal events, and exactly once if and only if there is exactly
one.  The same holds for `query` on every event sequence all of whose
`complete` results parse.  No terminal event is discarded. -/
theorem cb_called_once_per_terminal_event {V : Type} (parse : String → Option V)
    (chaincodeID : JSVal) (events : List TxEvent) (fcn userName : String) (args : List String) :
    cbCalls (invoke chaincodeID (.found true) .ok events fcn userName args)
      = events.filterMap invokeDelivery ∧
    (cbCalls (invoke chaincodeID (.found true) .ok events fcn userName args)).length
      = (events.filter TxEvent.isTerminal).length ∧
    ((cbCalls (invoke chaincodeID (.found true) .ok events fcn userName args)).length = 1
      ↔ (events.filter TxEvent.isTerminal).length = 1) ∧
    (events.all (TxEvent.parsable parse) = true →
      cbCalls (query parse chaincodeID (.found true) .ok events fcn userName args)
        = events.filterMap (queryDelivery parse) ∧
      (cbCalls (query parse chaincodeID (.found true) .ok events fcn userName args)).length
        = (events.filter TxEvent.isTerminal).length ∧
      ((cbCalls (query parse chaincodeID (.found true) .ok events fcn userName args)).length = 1
        ↔ (events.filter TxEvent.isTerminal).length = 1)) := by
  have hinv : (cbCalls (invoke chaincodeID (.found true) .ok events fcn userName args)).length
      = (events.filter TxEvent.isTerminal).length := by
    rw [cbCalls_invoke_enrolled]
    induction events with
    | nil => rfl
    | cons e es ih => cases e <;> simp [invokeDelivery, TxEvent.isTerminal, ih]
  refine ⟨cbCalls_invoke_enrolled _ _ _ _ _, hinv, by rw [hinv], ?_⟩
  intro h
  have hq : (cbCalls (query parse chaincodeID (.found true) .ok events fcn userName args)).length
      = (events.filter TxEvent.isTerminal).length := by
    rw [cbCalls_query_enrolled, length_filterMap_queryDelivery parse events h]
  exact ⟨cbCalls_query_enrolled _ _ _ _ _ _, hq, by rw [hq]⟩

/-- Witness of `cb_called_once_per_terminal_event`: a query whose channel
emits `submitted`, two `complete` with parsable results and an `error` calls
`cb` three times, once per terminal event. -/
theorem cb_called_once_per_terminal_event_witness :
    [TxEvent.submitted "s", TxEvent.complete "true", TxEvent.complete "false",
      TxEvent.error "e"].all (TxEvent.parsable boolLiteralParse) = true ∧
    (cbCalls (query boolLiteralParse (.str "cc") (.found true) .ok
      [.submitted "s", .complete "true", .complete "false", .error "e"]
      "balance" "alice" [])).length
      = ([TxEvent.submitted "s", TxEvent.complete "true", TxEvent.complete "false",
          TxEvent.error "e"].filter TxEvent.isTerminal).length :=
  ⟨by decide,
   ((cb_called_once_per_terminal_event boolLiteralParse (.str "cc")
      [.submitted "s", .complete "true", .complete "false", .error "e"]
      "balance" "alice" []).2.2.2 (by decide)).2.1⟩

/-- C6, as stated, fails: with `chaincodeID` still `undefined`, `invoke` for an
enrolled identity sends a request on the channel, carrying `undefined`, and
the callback receives the success the channel reports. -/
theorem invoke_before_deployment_sends_request :
    channelRequests
        (invoke .undefined (.found true) .ok [.complete "r"] "f" "alice" [])
      = [{ chaincodeID := .undefined, fcn := "f", args := ["alice"], attrs := ["userName"] }] ∧
    cbCalls (invoke .undefined (.found true) .ok [.complete "r"] "f" "alice" [])
      = [(none, some "r")] := by
  decide

/-- C6, amended: `invoke` and `query` make no readiness check; `chaincodeID`
is only copied into the request.  Whatever its value (`undefined`, `null` and
the empty string included): when `getUser` succeeds (identity found, enrolled,
certificate obtained) exactly one request is sent on the channel, with that
value and with the identity name appended to the arguments, and every call of
`cb` delivers an event emitted by the channel (for `invoke`, `cb` is called
exactly with the deliveries of the emitted events), never a failure of the
coordinator's own; when the identity is enrolled and its certificate request
fails with `err`, no request is sent and `cb` is called once, with `err`. -/
theorem submit_sends_request_whatever_chaincodeID {V : Type} (parse : String → Option V)
    (chaincodeID : JSVal) (events : List TxEvent) (err fcn userName : String)
    (args : List String) :
    (channelRequests (invoke chaincodeID (.found true) .ok events fcn userName args)
        = [{ chaincodeID := chaincodeID, fcn := fcn, args := args ++ [userName],
             attrs := ["userName"] }] ∧
      cbCalls (invoke chaincodeID (.found true) .ok events fcn userName args)
        = events.filterMap invokeDelivery) ∧
    (channelRequests (query parse chaincodeID (.found true) .ok events fcn userName args)
        = [{ chaincodeID := chaincodeID, fcn := fcn, args := args ++ [userName],
             attrs := ["userName"] }] ∧
      ∀ c ∈ cbCalls (query parse chaincodeID (.found true) .ok events fcn userName args),
        ∃ e ∈ events, queryDelivery parse e = some c) ∧
    (channelRequests (invoke chaincodeID (.found true) (.failed err) events fcn userName args)
        = [] ∧
      cbCalls (invoke chaincodeID (.found true) (.failed err) events fcn userName args)
        = [(some err, none)]) ∧
    (channelRequests
        (query parse chaincodeID (.found true) (.failed err) events fcn userName args) = [] ∧
      cbCalls (query parse chaincodeID (.found true) (.failed err) events fcn userName args)
        = [(some err, none)]) := by
  refine ⟨⟨?_, cbCalls_invoke_enrolled _ _ _ _ _⟩, ⟨?_, ?_⟩, ⟨?_, ?_⟩, ⟨?_, ?_⟩⟩
  · simp [invoke, getUser, channelRequests, channelRequests_invokeHandlers]
  · simp [query, getUser, channelRequests, channelRequests_queryHandlers]
  · intro c hc
    rw [cbCalls_query_enrolled] at hc
    exact List.mem_filterMap.mp hc
  · simp [invoke, getUser, channelRequests]
  · simp [invoke, getUser, cbCalls]
  · simp [query, getUser, channelRequests]
  · simp [query, getUser, cbCalls]

/-- Witness of `submit_sends_request_whatever_chaincodeID`: with `chaincodeID`
`null`, the one call of `cb` by a query delivers the `error` event the channel
emitted. -/
theorem submit_sends_request_whatever_chaincodeID_witness :
    ((some "e", none) : Option String × Option Bool) ∈
      cbCalls (query boolLiteralParse .null (.found true) .ok [.error "e"]
        "balance" "alice" []) ∧
    ∃ e ∈ [TxEvent.error "e"], queryDelivery boolLiteralParse e = some (some "e", none) :=
  ⟨by decide,
   (submit_sends_request_whatever_chaincodeID boolLiteralParse .null [.error "e"] "x"
      "balance" "alice" []).2.1.2 (some "e", none) (by decide)⟩

/-- C7, as stated, fails: for a query whose `complete` event carries a result
that does not parse, the callback is not called at all and the `SyntaxError`
leaves the event handler. -/
theorem query_unparsable_result_throws :
    boolLiteralParse "oops" = none ∧
    cbCalls (query boolLiteralParse (.str "cc") (.found true) .ok [.complete "oops"]
      "f" "alice" []) = [] ∧
    uncaughtExns (query boolLiteralParse (.str "cc") (.found true) .ok [.complete "oops"]
      "f" "alice" []) = ["SyntaxError"] := by
  decide

/-- C7, amended: for a query of an enrolled identity whose `complete` event
carries a result that parses to `v`, `cb` is called exactly once, with
`(null, v)`, and nothing is thrown; when the result does not parse, the
`SyntaxError` leaves the event handler and `cb` is not called. -/
theorem query_complete_parse {V : Type} (parse : String → Option V) (chaincodeID : JSVal)
    (results fcn userName : String) (args : List String) :
    (∀ v, parse results = some v →
      cbCalls (query parse chaincodeID (.found true) .ok [.complete results] fcn userName args)
        = [(none, some v)] ∧
      uncaughtExns (query parse chaincodeID (.found true) .ok [.complete results]
        fcn userName args) = []) ∧
    (parse results = none →
      cbCalls (query parse chaincodeID (.found true) .ok [.complete results] fcn userName args)
        = [] ∧
      uncaughtExns (query parse chaincodeID (.found true) .ok [.complete results]
        fcn userName args) = ["SyntaxError"]) := by
  constructor
  · intro v h
    simp [query, getUser, queryHandler, cbCalls, uncaughtExns, h]
  · intro h
    simp [query, getUser, queryHandler, cbCalls, uncaughtExns, h]

/-- Witness of `query_complete_parse`: the result `true` parses, and `cb`
receives `(null, true)`. -/
theorem query_complete_parse_witness :
    boolLiteralParse "true" = some true ∧
    cbCalls (query boolLiteralParse (.str "cc") (.found true) .ok [.complete "true"]
      "balance" "alice" []) = [(none, some true)] ∧
    uncaughtExns (query boolLiteralParse (.str "cc") (.found true) .ok [.complete "true"]
      "balance" "alice" []) = [] :=
  ⟨by decide,
   (query_complete_parse boolLiteralParse (.str "cc") "true" "balance" "alice" []).1 true
     (by decide)⟩

/-- C8: for every `invoke` or `query` naming an identity that is found but
not enrolled, `cb` is called exactly once, with an error, no certificate is
requested and nothing is sent on the channel; when the lookup fails, `cb` is
called exactly once with the lookup error and nothing is sent on the
channel. -/
theorem unenrolled_or_unknown_identity_rejected {V : Type} (parse : String → Option V)
    (chaincodeID : JSVal) (cert : CertOutcome) (events : List TxEvent) (err : String)
    (fcn userName : String) (args : List String) :
    (cbCalls (invoke chaincodeID (.found false) cert events fcn userName args)
        = [(some "user is not yet registered and enrolled", none)] ∧
      certRequests (invoke chaincodeID (.found false) cert events fcn userName args) = [] ∧
      channelRequests (invoke chaincodeID (.found false) cert events fcn userName args) = []) ∧
    (cbCalls (query parse chaincodeID (.found false) cert events fcn userName args)
        = [(some "user is not yet registered and enrolled", none)] ∧
      certRequests (query parse chaincodeID (.found false) cert events fcn userName args) = [] ∧
      channelRequests (query parse chaincodeID (.found false) cert events fcn userName args)
        = []) ∧
    (cbCalls (invoke chaincodeID (.failed err) cert events fcn userName args)
        = [(some err, none)] ∧
      certRequests (invoke chaincodeID (.failed err) cert events fcn userName args) = [] ∧
      channelRequests (invoke chaincodeID (.failed err) cert events fcn userName args) = []) ∧
    (cbCalls (query parse chaincodeID (.failed err) cert events fcn userName args)
        = [(some err, none)] ∧
      certRequests (query parse chaincodeID (.failed err) cert events fcn userName args) = [] ∧
      channelRequests (query parse chaincodeID (.failed err) cert events fcn userName args)
        = []) := by
  simp [invoke, query, getUser, cbCalls, certRequests, channelRequests]

/-! ## User registrar: results -/

theorem registrationRequests_append (xs ys : List Effect) :
    registrationRequests (xs ++ ys) = registrationRequests xs ++ registrationRequests ys := by
  induction xs with
  | nil => rfl
  | cons x xs ih => cases x <;> simp [registrationRequests, ih]

theorem lookups_append (xs ys : List Effect) :
    lookups (xs ++ ys) = lookups xs ++ lookups ys := by
  induction xs with
  | nil => rfl
  | cons x xs ih => cases x <;> simp [lookups, ih]

theorem registrationRequests_registerUser (lookup : LookupOutcome) (reg : Option String)
    (user : AppUser) :
    registrationRequests (registerUser lookup reg user)
      = if lookup = .found false then
          [{ enrollmentID := user.username, affiliation := "institution_a", account := "group1" }]
        else [] := by
  cases lookup with
  | failed err => simp [registerUser, registrationRequests]
  | found enrolled =>
    cases enrolled <;> cases reg <;> simp [registerUser, registrationRequests]

theorem lookups_registerUser (lookup : LookupOutcome) (reg : Option String) (user : AppUser) :
    lookups (registerUser lookup reg user) = [user.username] := by
  cases lookup with
  | failed err => simp [registerUser, lookups]
  | found enrolled =>
    cases enrolled <;> cases reg <;> simp [registerUser, lookups]

theorem registrationRequests_registerUsersFrom (lookup : Nat → LookupOutcome)
    (reg : Nat → Option String) (i : Nat) (users : List AppUser) :
    registrationRequests (registerUsersFrom lookup reg i users)
      = (unenrolledFrom lookup i users).map fun u =>
          { enrollmentID := u.username, affiliation := "institution_a", account := "group1" } := by
  induction users generalizing i with
  | nil => rfl
  | cons u us ih =>
    simp only [registerUsersFrom, registrationRequests_append, registrationRequests_registerUser,
      unenrolledFrom, ih]
    by_cases h : lookup i = .found false <;> simp [h]

theorem lookups_registerUsersFrom (lookup : Nat → LookupOutcome)
    (reg : Nat → Option String) (i : Nat) (users : List AppUser) :
    lookups (registerUsersFrom lookup reg i users) = users.map AppUser.username := by
  induction users generalizing i with
  | nil => rfl
  | cons u us ih =>
    simp [registerUsersFrom, lookups_append, lookups_registerUser, ih]

theorem unenrolledFrom_all_enrolled (lookup : Nat → LookupOutcome) (i : Nat)
    (users : List AppUser)
    (h : ∀ j, i ≤ j → j < i + users.length → lookup j = .found true) :
    unenrolledFrom lookup i users = [] := by
  induction users generalizing i with
  | nil => rfl
  | cons u us ih =>
    have hi : lookup i = .found true := h i (Nat.le_refl i) (by simp)
    have hrest : unenrolledFrom lookup (i + 1) us = [] :=
      ih (i + 1) fun j h1 h2 => h j (by omega) (by simp only [List.length_cons]; omega)
    simp [unenrolledFrom, hi, hrest]

/-- C9: for every list of configured identities and every outcome of the
lookups and of the registrations, `registerUsers` looks up every configured
identity, and issues `registerAndEnroll` for exactly the identities whose
lookup succeeds with `isEnrolled()` false, one request each, in order, with
`enrollmentID` the identity's username; a failed lookup or registration does
not stop the remaining identities.  When every configured identity is already
enrolled, no registration request is issued. -/
theorem registerUsers_requests (app_users : List AppUser) (lookup : Nat → LookupOutcome)
    (reg : Nat → Option String) :
    registrationRequests (registerUsers app_users lookup reg)
      = ((unenrolledFrom lookup 0 app_users).map fun u =>
          { enrollmentID := u.username, affiliation := "institution_a", account := "group1" }) ∧
    lookups (registerUsers app_users lookup reg) = app_users.map AppUser.username ∧
    ((∀ i, i < app_users.length → lookup i = .found true) →
      registrationRequests (registerUsers app_users lookup reg) = []) := by
  refine ⟨?_, ?_, ?_⟩
  · simp [registerUsers, registrationRequests, registrationRequests_registerUsersFrom]
  · simp [registerUsers, lookups, lookups_registerUsersFrom]
  · intro h
    have h0 : unenrolledFrom lookup 0 app_users = [] :=
      unenrolledFrom_all_enrolled lookup 0 app_users fun j _ h2 => h j (by omega)
    simp [registerUsers, registrationRequests, registrationRequests_registerUsersFrom, h0]

/-- Witness of `registerUsers_requests`: on a second run, `alice` and `bob`
both enrolled, no registration request is issued. -/
theorem registerUsers_requests_witness :
    (∀ i, i < [AppUser.mk "alice", AppUser.mk "bob"].length →
      (fun _ => LookupOutcome.found true) i = LookupOutcome.found true) ∧
    registrationRequests
      (registerUsers [AppUser.mk "alice", AppUser.mk "bob"] (fun _ => .found true)
        (fun _ => none)) = [] :=
  ⟨fun _ _ => rfl,
   (registerUsers_requests [AppUser.mk "alice", AppUser.mk "bob"] (fun _ => .found true)
     (fun _ => none)).2.2 (fun _ _ => rfl)⟩

/-! ## Deployment controller: results -/

theorem deployRequests_append (xs ys : List Effect) :
    deployRequests (xs ++ ys) = deployRequests xs ++ deployRequests ys := by
  induction xs with
  | nil => rfl
  | cons x xs ih => cases x <;> simp [deployRequests, ih]

/-- The right operand of `===` on line 169, `('' || null)`, is `null`. -/
theorem empty_or_null : JSVal.or (.str "") .null = .null := by
  decide

/-- The trace of `afterDeployment` contains no new deployment request, and
`chaincodeID` becomes the identifier passed. -/
theorem afterDeployment_spec (env : Env) (newChaincodeID : JSVal) (w : World) :
    deployRequests (afterDeployment env newChaincodeID w).trace = deployRequests w.trace ∧
    (afterDeployment env newChaincodeID w).chaincodeID = newChaincodeID ∧
    (afterDeployment env newChaincodeID w).config = w.config := by
  unfold afterDeployment
  cases h : w.config.chaincode.auto_redeploy <;>
    simp [saveLatestDeployed, watchChaincodeLocalFile, World.emit, deployRequests_append,
      deployRequests, h]

/-- C3, as stated, fails: with the top level `config.deployed_name` set, the
guard on line 165 skips the assignment of the persisted identifier `X`; with
nothing configured in `config.chaincode.deployed_name` a deployment request is
issued and `chaincodeID` is not `X` (it stays `undefined`). -/
theorem top_level_name_blocks_reuse :
    (deployRequests
        (deployChaincode localEnv false (.ok "X") 0 (World.initial topLevelNameConfig)).trace
      ).length = 1 ∧
    (deployChaincode localEnv false (.ok "X") 0 (World.initial topLevelNameConfig)).chaincodeID
      = .undefined ∧
    (deployChaincode localEnv false (.ok "X") 0 (World.initial topLevelNameConfig)).chaincodeID
      ≠ .str "X" := by
  decide

/-- C3, amended: in self-hosted mode, when the top level `config.deployed_name`
(the property the guard on line 165 tests) is unset or otherwise falsy, for
every identifier `X` read without error from the persisted record, so for
every non-empty one, `deployChaincode` with `forceRedeploy` false issues no
deployment request and `chaincodeID` afterwards equals `X`. -/
theorem deploy_reuses_persisted (env : Env) (w : World) (X : String) (now : Nat)
    (hlocal : env.production = false)
    (hunset : w.config.deployed_name.truthy = false) :
    deployRequests (deployChaincode env false (.ok X) now w).trace = deployRequests w.trace ∧
    (deployChaincode env false (.ok X) now w).chaincodeID = .str X := by
  simp [deployChaincode, loadLatestDeployed, hlocal, hunset, World.emit, JSVal.strictEq,
    empty_or_null, afterDeployment_spec, deployRequests_append, deployRequests]

/-- Witness of `deploy_reuses_persisted`: the persisted record holds `cc1`. -/
theorem deploy_reuses_persisted_witness :
    localEnv.production = false ∧
    (World.initial sampleConfig).config.deployed_name.truthy = false ∧
    deployRequests
      (deployChaincode localEnv false (.ok "cc1") 0 (World.initial sampleConfig)).trace
      = deployRequests (World.initial sampleConfig).trace ∧
    (deployChaincode localEnv false (.ok "cc1") 0 (World.initial sampleConfig)).chaincodeID
      = .str "cc1" :=
  ⟨rfl, rfl,
   deploy_reuses_persisted localEnv (World.initial sampleConfig) "cc1" 0 rfl rfl⟩

/-- C4 fails on the code: the right operand of `===` on line 169 is `null`, so
only `null` counts as not deployed.  With an empty persisted record read
without error, with an unreadable record and `undefined` configured, and with
an unreadable record and the empty string configured, `deployChaincode(false)`
issues no deployment request and runs `afterDeployment` with the empty or
absent value, which becomes `chaincodeID` and is written to the persisted
record; with `null` configured and an unreadable record it does deploy. -/
theorem empty_or_undefined_identifier_not_deployed_anew :
    (deployRequests
        (deployChaincode localEnv false (.ok "") 0 (World.initial sampleConfig)).trace = [] ∧
      (deployChaincode localEnv false (.ok "") 0 (World.initial sampleConfig)).chaincodeID
        = .str "" ∧
      persistedWrites
        (deployChaincode localEnv false (.ok "") 0 (World.initial sampleConfig)).trace
        = [.str ""]) ∧
    (deployRequests
        (deployChaincode localEnv false (.failed "ENOENT") 0
          (World.initial (sampleConfigWith .undefined))).trace = [] ∧
      (deployChaincode localEnv false (.failed "ENOENT") 0
          (World.initial (sampleConfigWith .undefined))).chaincodeID = .undefined ∧
      persistedWrites
        (deployChaincode localEnv false (.failed "ENOENT") 0
          (World.initial (sampleConfigWith .undefined))).trace = [.undefined]) ∧
    (deployRequests
        (deployChaincode localEnv false (.failed "ENOENT") 0
          (World.initial (sampleConfigWith (.str "")))).trace = [] ∧
      (deployChaincode localEnv false (.failed "ENOENT") 0
          (World.initial (sampleConfigWith (.str "")))).chaincodeID = .str "") ∧
    ((deployRequests
        (deployChaincode localEnv false (.failed "ENOENT") 0
          (World.initial (sampleConfigWith .null))).trace).length = 1 ∧
      persistedWrites
        (deployChaincode localEnv false (.failed "ENOENT") 0
          (World.initial (sampleConfigWith .null))).trace = []) := by
  decide

/-- C5 fails on the code: the guard on line 165 tests `config.deployed_name`,
not `config.chaincode.deployed_name`.  With `C` configured in
`config.chaincode.deployed_name` and the persisted record holding `P`,
`deployChaincode(false)` overwrites the configured identifier with `P` and
`chaincodeID` afterwards is `P`; no deployment request is issued. -/
theorem configured_identifier_overwritten_by_persisted :
    (World.initial (sampleConfigWith (.str "C"))).config.chaincode.deployed_name = .str "C" ∧
    (deployChaincode localEnv false (.ok "P") 0
        (World.initial (sampleConfigWith (.str "C")))).config.chaincode.deployed_name
      = .str "P" ∧
    (deployChaincode localEnv false (.ok "P") 0
        (World.initial (sampleConfigWith (.str "C")))).chaincodeID = .str "P" ∧
    deployRequests
      (deployChaincode localEnv false (.ok "P") 0
        (World.initial (sampleConfigWith (.str "C")))).trace = [] := by
  decide

/-- A forced deploy in self-hosted mode issues exactly one new deployment
request, whose single argument is `createHash()`, and leaves the code path
unchanged. -/
theorem deployChaincode_forced (env : Env) (rd : ReadOutcome) (now : Nat) (w : World)
    (hlocal : env.production = false) :
    deployRequests (deployChaincode env true rd now w).trace
      = deployRequests w.trace ++
          [{ fcn := "init", args := [createHash env now],
             chaincodePath := w.config.chaincode.global_path }] ∧
    (deployChaincode env true rd now w).config.chaincode.global_path
      = w.config.chaincode.global_path := by
  cases rd <;> cases h : w.config.deployed_name.truthy <;>
    simp [deployChaincode, loadLatestDeployed, hlocal, h, World.emit, deployRequests_append,
      deployRequests]

/-- C10 fails on the code: the nonce is the digest of the millisecond clock
reading alone.  In self-hosted mode, for every digest function, every state
and every persisted record, two calls `deployChaincode(true)` that read the
same clock value `t` each issue exactly one deployment request, and the two
requests carry the same nonce. -/
theorem forced_deploys_at_same_clock_share_nonce (goPath : String) (md5 : String → String)
    (w : World) (rd1 rd2 : ReadOutcome) (t : Nat) :
    deployRequests
        (deployChaincode { production := false, goPath := goPath, md5Base64 := md5 } true rd2 t
          (deployChaincode { production := false, goPath := goPath, md5Base64 := md5 } true rd1 t
            w)).trace
      = deployRequests w.trace ++
          [{ fcn := "init", args := [md5 (toString t)],
             chaincodePath := w.config.chaincode.global_path },
           { fcn := "init", args := [md5 (toString t)],
             chaincodePath := w.config.chaincode.global_path }] := by
  rw [(deployChaincode_forced _ rd2 t _ rfl).1, (deployChaincode_forced _ rd1 t _ rfl).1,
    (deployChaincode_forced _ rd1 t _ rfl).2]
  simp [createHash]

/-- C2 fails on the code: every run of `afterDeployment` registers one more
listener with its own `fsTimeout`.  After the first deployment there is one
listener; a change at time 0 starts one redeploy cycle; once that redeploy has
completed there are two listeners, and the single change at time 60000 starts
two redeploy cycles (copies one to three). -/
theorem change_after_redeploy_starts_two_cycles :
    (afterDeployment localEnv (.str "cc1") (World.initial sampleConfig)).watchers.length = 1 ∧
    copiesStarted
      (run localEnv (afterDeployment localEnv (.str "cc1") (World.initial sampleConfig))
        [.fileChange 0, .copyDone none (.ok "cc1") 10, .deployComplete (.str "cc2")]).trace
      = 1 ∧
    (run localEnv (afterDeployment localEnv (.str "cc1") (World.initial sampleConfig))
        [.fileChange 0, .copyDone none (.ok "cc1") 10,
         .deployComplete (.str "cc2")]).watchers.length = 2 ∧
    copiesStarted
      (run localEnv (afterDeployment localEnv (.str "cc1") (World.initial sampleConfig))
        [.fileChange 0, .copyDone none (.ok "cc1") 10, .deployComplete (.str "cc2"),
         .fileChange 60000]).trace
      = 3 := by
  decide

/-! ## Debounce of one listener -/

theorem copiesStarted_append (xs ys : List Effect) :
    copiesStarted (xs ++ ys) = copiesStarted xs + copiesStarted ys := by
  induction xs with
  | nil => simp [copiesStarted]
  | cons x xs ih => cases x <;> (simp [copiesStarted, ih]; try omega)

/-- One listener and one change notification at a time `t` of the span
starting at `t0`: either it starts a copy and is closed for the rest of the
span, or it starts none and is unchanged. -/
theorem watchListener_debounce (config : Config) (t0 t : Nat) (wa : Watcher)
    (h1 : t0 ≤ t) (h2 : t < t0 + 5000) :
    copiesStarted (watchListener config t (wa.expire t)).2
        + (if (watchListener config t (wa.expire t)).1.openBefore t0 then 1 else 0)
      = if wa.openBefore t0 then 1 else 0 := by
  obtain ⟨g, ft⟩ := wa
  cases ft with
  | none =>
    have h3 : ¬ (t + 5000 < t0 + 5000) := by omega
    simp [Watcher.expire, watchListener, Watcher.openBefore, copiesStarted, h3]
  | some d =>
    by_cases hd : d ≤ t
    · have h3 : ¬ (t + 5000 < t0 + 5000) := by omega
      have h4 : d < t0 + 5000 := by omega
      simp [Watcher.expire, watchListener, Watcher.openBefore, copiesStarted, hd, h3, h4]
    · simp [Watcher.expire, watchListener, Watcher.openBefore, copiesStarted, hd]

theorem listeners_debounce (config : Config) (t0 t : Nat) (ws : List Watcher)
    (h1 : t0 ≤ t) (h2 : t < t0 + 5000) :
    copiesStarted (((ws.map (Watcher.expire t)).map (watchListener config t)).flatMap Prod.snd)
        + ((((ws.map (Watcher.expire t)).map (watchListener config t)).map Prod.fst).filter
            (Watcher.openBefore t0)).length
      = (ws.filter (Watcher.openBefore t0)).length := by
  induction ws with
  | nil => simp [copiesStarted]
  | cons wa ws ih =>
    have hw := watchListener_debounce config t0 t wa h1 h2
    simp only [List.map_cons, List.flatMap_cons, copiesStarted_append, List.filter_cons]
    split_ifs at hw ⊢ <;> (try simp only [List.length_cons]) <;> omega

/-- Change notifications leave the number of listeners unchanged. -/
theorem onFileChange_watchers_length (t : Nat) (w : World) :
    (onFileChange t w).watchers.length = w.watchers.length := by
  simp [onFileChange]

/-- The debounce of lines 233-234 works for each listener separately: change
notifications whose times all lie in a span shorter than 5000 ms start, on
top of the copies already started, at most one copy per registered listener
(so at most one when a single listener is registered). -/
theorem debounce_one_copy_per_listener (env : Env) (t0 : Nat) (ts : List Nat) (w : World)
    (hspan : ∀ t ∈ ts, t0 ≤ t ∧ t < t0 + 5000) :
    copiesStarted (run env w (ts.map Event.fileChange)).trace
      ≤ copiesStarted w.trace + w.watchers.length := by
  have key : ∀ (ts : List Nat) (w : World), (∀ t ∈ ts, t0 ≤ t ∧ t < t0 + 5000) →
      copiesStarted (run env w (ts.map Event.fileChange)).trace
          + ((run env w (ts.map Event.fileChange)).watchers.filter
              (Watcher.openBefore t0)).length
        = copiesStarted w.trace + (w.watchers.filter (Watcher.openBefore t0)).length := by
    intro ts
    induction ts with
    | nil => intro w _; simp [run]
    | cons t ts ih =>
      intro w h
      have ht := h t (List.mem_cons_self t ts)
      have hrest : ∀ u ∈ ts, t0 ≤ u ∧ u < t0 + 5000 :=
        fun u hu => h u (List.mem_cons_of_mem t hu)
      have hstep := listeners_debounce w.config t0 t w.watchers ht.1 ht.2
      have hrun : run env w ((t :: ts).map Event.fileChange)
          = run env (onFileChange t w) (ts.map Event.fileChange) := by
        simp [run, step]
      rw [hrun, ih (onFileChange t w) hrest]
      simp only [onFileChange, copiesStarted_append]
      omega
  have h := key ts w hspan
  have hle := List.length_filter_le (Watcher.openBefore t0) w.watchers
  omega

/-- Witness of `debounce_one_copy_per_listener`: three changes within one
second after the first deployment start one copy. -/
theorem debounce_one_copy_per_listener_witness :
    (∀ t ∈ [100, 300, 900], 100 ≤ t ∧ t < 100 + 5000) ∧
    copiesStarted
      (run localEnv (afterDeployment localEnv (.str "cc1") (World.initial sampleConfig))
        ([100, 300, 900].map Event.fileChange)).trace
      ≤ copiesStarted
          (afterDeployment localEnv (.str "cc1") (World.initial sampleConfig)).trace
        + (afterDeployment localEnv (.str "cc1")
            (World.initial sampleConfig)).watchers.length :=
  ⟨by decide,
   debounce_one_copy_per_listener localEnv 100 [100, 300, 900]
     (afterDeployment localEnv (.str "cc1") (World.initial sampleConfig)) (by decide)⟩

end Blockchain
